import Mathlib

/-
Verification development for the `defi` repository.

The repository contains:
* `src/contracts/pool.ts`, contract section: a pool contract with
  `struct Pool { totalLiquidity; tokenA; tokenB; liquidityProviders }`, a
  `pools` map, and the operations `createPool`, `addLiquidity`, `swapAtoB`.
  These are embedded below as `Pool`, `ContractState`, `createPool`,
  `addLiquidity`, `swapAtoB`.  The contract integers are embedded as `Int`,
  and the contract's integer division as Lean's `Int` division, which is
  floor division (the two agree with truncating division on the non-negative
  operands all claims quantify over).
* `src/unnamed/part_000`: the TypeScript `Pool` wrapper with
  `poolConfigToCell`, embedded below with a small model of TON cell builders.
* `src/wrappers/pool.compile.ts`: compiles `contracts/pool.fc`, which is not
  in the repository.  The on-chain `set_fees` and `collect_fees` handlers of
  that contract are therefore modelled from the spec (marked below).
-/

/-- Opaque account identity (TON address); the core treats it as an
    opaque key, so a single id field suffices. -/
structure Address where
  id : Nat
deriving DecidableEq

/-! ## Embedding of the pool contract in `src/contracts/pool.ts`
    (contract section, lines 255-317). -/

/-- `struct Pool` from the contract: total liquidity measure, the two token
    reserves, and the per-provider liquidity map.  The map is embedded as a
    total function defaulting to 0, matching the contract's map semantics
    (`pool.liquidityProviders[msg.sender] += ...` reads a missing key as 0). -/
structure Pool where
  totalLiquidity : Int
  tokenA : Int
  tokenB : Int
  liquidityProviders : Address → Int

/-- The contract's global state relevant to the pool operations: the
    `pools` map (total function defaulting on every key) and `poolCount`. -/
structure ContractState where
  pools : Int → Pool
  poolCount : Int

/-- An outbound token transfer instruction (`sendToken(recipient, amount)`). -/
structure Transfer where
  recipient : Address
  amount : Int

/-- `createPool(amountA, amountB)`: increments `poolCount`, stores
    `Pool(amountA + amountB, amountA, amountB, [])` at the new id, and
    returns the id. -/
def createPool (st : ContractState) (amountA amountB : Int) : ContractState × Int :=
  let newCount := st.poolCount + 1
  let newPool : Pool := ⟨amountA + amountB, amountA, amountB, fun _ => 0⟩
  (⟨Function.update st.pools newCount newPool, newCount⟩, newCount)

/-- `addLiquidity(poolId, amountA, amountB)`: adds the amounts to the
    reserves, adds `amountA + amountB` to `totalLiquidity` and to the
    caller's entry in `liquidityProviders`, and writes the pool back. -/
def addLiquidity (st : ContractState) (sender : Address) (poolId amountA amountB : Int) :
    ContractState :=
  let pool := st.pools poolId
  let pool' : Pool :=
    { pool with
      tokenA := pool.tokenA + amountA
      tokenB := pool.tokenB + amountB
      totalLiquidity := pool.totalLiquidity + (amountA + amountB)
      liquidityProviders :=
        Function.update pool.liquidityProviders sender
          (pool.liquidityProviders sender + (amountA + amountB)) }
  ⟨Function.update st.pools poolId pool', st.poolCount⟩

/-- `swapAtoB(poolId, amountA)`: computes
    `amountB = (amountA * pool.tokenB) / (pool.tokenA + amountA)`,
    updates `tokenA += amountA`, `tokenB -= amountB`, writes the pool back
    and sends `amountB` of token B to the caller.  The source performs no
    validation of any kind (no zero-amount, zero-reserve, output or
    invariant check) and has no error path. -/
def swapAtoB (st : ContractState) (sender : Address) (poolId amountA : Int) :
    ContractState × Transfer :=
  let pool := st.pools poolId
  let amountB := (amountA * pool.tokenB) / (pool.tokenA + amountA)
  let pool' : Pool := { pool with tokenA := pool.tokenA + amountA, tokenB := pool.tokenB - amountB }
  (⟨Function.update st.pools poolId pool', st.poolCount⟩, ⟨sender, amountB⟩)

/-! ## Embedding of `poolConfigToCell` in `src/unnamed/part_000`. -/

/-- One item written into a TON cell builder. -/
inductive BItem where
  | uintItem (value width : Nat)
  | addrItem (a : Address)
  | dictItem (entries : List (Nat × Nat))
deriving DecidableEq

/-- A TON cell: the sequence of data items written to it and its reference
    cells, in write order. -/
inductive TCell where
  | mk (bits : List BItem) (refs : List TCell)

/-- Data items of a cell, in write order. -/
def TCell.bits : TCell → List BItem
  | .mk b _ => b

/-- Reference cells of a cell, in write order. -/
def TCell.refs : TCell → List TCell
  | .mk _ r => r

/-- A cell builder: data items and references accumulated so far. -/
structure Builder where
  bits : List BItem
  refs : List TCell

/-- `beginCell()`. -/
def beginCell : Builder := ⟨[], []⟩

/-- `storeUint(value, width)`. -/
def Builder.storeUint (b : Builder) (value width : Nat) : Builder :=
  { b with bits := b.bits ++ [.uintItem value width] }

/-- `storeAddress(a)`. -/
def Builder.storeAddress (b : Builder) (a : Address) : Builder :=
  { b with bits := b.bits ++ [.addrItem a] }

/-- `storeDict(d)`. -/
def Builder.storeDict (b : Builder) (d : List (Nat × Nat)) : Builder :=
  { b with bits := b.bits ++ [.dictItem d] }

/-- `storeRef(c)`. -/
def Builder.storeRef (b : Builder) (c : TCell) : Builder :=
  { b with refs := b.refs ++ [c] }

/-- `endCell()`. -/
def Builder.endCell (b : Builder) : TCell := .mk b.bits b.refs

/-- `PoolConfig` from `src/unnamed/part_000`. -/
structure PoolConfig where
  owner_address : Address
  token_a_address : Address
  token_b_address : Address
  lp_token_address : Address
  min_liquidity : Nat

/-- `poolConfigToCell(config)` from `src/unnamed/part_000`: stores three
    address refs, then `reserve_a = 0`, `reserve_b = 0`, `total_supply = 0`
    (128 bits each), `min_liquidity` (128 bits), `is_locked = 0` (1 bit),
    an empty authorized-addresses dictionary, and the LP token address ref. -/
def poolConfigToCell (config : PoolConfig) : TCell :=
  (((((((((beginCell.storeRef
      ((beginCell.storeAddress config.owner_address).endCell)).storeRef
      ((beginCell.storeAddress config.token_a_address).endCell)).storeRef
      ((beginCell.storeAddress config.token_b_address).endCell)).storeUint 0 128).storeUint
      0 128).storeUint 0 128).storeUint config.min_liquidity 128).storeUint 0 1).storeDict
      []).storeRef ((beginCell.storeAddress config.lp_token_address).endCell)
    |>.endCell

/-- The `(value, width)` pairs of the `storeUint` items of a cell, in write
    order.  For `poolConfigToCell` these are, in order: `reserve_a`,
    `reserve_b`, `total_supply`, `min_liquidity`, `is_locked`. -/
def storedUints (c : TCell) : List (Nat × Nat) :=
  c.bits.filterMap fun i =>
    match i with
    | .uintItem v w => some (v, w)
    | _ => none

/-! ## Helper lemmas for the swap arithmetic. -/

/-- Floor division never lets the post-swap reserve product drop: with all
    of `a`, `b`, `x` positive, `(a + x) * (b - x * b / (a + x)) ≥ a * b`. -/
lemma swap_product_le (a b x : Int) (ha : 0 < a) (hb : 0 < b) (hx : 0 < x) :
    a * b ≤ (a + x) * (b - x * b / (a + x)) := by
  have hd : (0 : Int) < a + x := by linarith
  have hkey : (a + x) * (x * b / (a + x)) + x * b % (a + x) = x * b :=
    Int.ediv_add_emod (x * b) (a + x)
  have hr : 0 ≤ x * b % (a + x) := Int.emod_nonneg _ (ne_of_gt hd)
  nlinarith [hkey, hr]

/-- The swap output `x * b / (a + x)` never exceeds the output-side
    reserve `b`. -/
lemma swap_output_le (a b x : Int) (ha : 0 ≤ a) (hb : 0 ≤ b) (hx : 0 ≤ x)
    (hd : 0 < a + x) : x * b / (a + x) ≤ b := by
  have h1 : x * b ≤ (a + x) * b := by nlinarith
  have h2 : x * b / (a + x) ≤ (a + x) * b / (a + x) := Int.ediv_le_ediv hd h1
  rwa [Int.mul_ediv_cancel_left b (ne_of_gt hd)] at h2

/-! ## Claim theorems. -/

/-- C1: for every pool state with `tokenA > 0`, `tokenB > 0` and every
    `amountA > 0`, `swapAtoB` yields post-swap reserves whose product is at
    least the pre-swap product. -/
theorem swapAtoB_product_nondecreasing (st : ContractState) (sender : Address)
    (poolId amountA : Int)
    (hA : 0 < (st.pools poolId).tokenA) (hB : 0 < (st.pools poolId).tokenB)
    (hx : 0 < amountA) :
    (st.pools poolId).tokenA * (st.pools poolId).tokenB ≤
      ((swapAtoB st sender poolId amountA).1.pools poolId).tokenA *
        ((swapAtoB st sender poolId amountA).1.pools poolId).tokenB := by
  unfold swapAtoB
  simp only [Function.update_same]
  exact swap_product_le _ _ _ hA hB hx

/-- Concrete instance of C1: reserves `(1000000, 1000000)`, `amountA = 1000`. -/
def witnessState : ContractState :=
  ⟨fun _ => ⟨0, 1000000, 1000000, fun _ => 0⟩, 1⟩

theorem swapAtoB_product_nondecreasing_holds :
    (witnessState.pools 1).tokenA * (witnessState.pools 1).tokenB ≤
      ((swapAtoB witnessState ⟨0⟩ 1 1000).1.pools 1).tokenA *
        ((swapAtoB witnessState ⟨0⟩ 1 1000).1.pools 1).tokenB :=
  swapAtoB_product_nondecreasing witnessState ⟨0⟩ 1 1000 (by decide) (by decide) (by decide)

/-- C2: the swap output is `floor(amountA * tokenB / (tokenA + amountA))`
    computed with truncating (here: non-negative, so also floor) integer
    division, and the reserves are updated exactly by `tokenA += amountA`
    and `tokenB -= amountB`. -/
theorem swapAtoB_formula (st : ContractState) (sender : Address)
    (poolId amountA : Int)
    (hA : 0 ≤ (st.pools poolId).tokenA) (hB : 0 ≤ (st.pools poolId).tokenB)
    (hx : 0 ≤ amountA) :
    ((swapAtoB st sender poolId amountA).1.pools poolId).tokenA
        = (st.pools poolId).tokenA + amountA ∧
    ((swapAtoB st sender poolId amountA).1.pools poolId).tokenB
        = (st.pools poolId).tokenB - (swapAtoB st sender poolId amountA).2.amount ∧
    (swapAtoB st sender poolId amountA).2.amount
        = ((amountA.toNat * (st.pools poolId).tokenB.toNat
            / ((st.pools poolId).tokenA.toNat + amountA.toNat) : Nat) : Int) := by
  refine ⟨?_, ?_, ?_⟩
  · unfold swapAtoB
    simp only [Function.update_same]
  · unfold swapAtoB
    simp only [Function.update_same]
  · show (amountA * (st.pools poolId).tokenB) / ((st.pools poolId).tokenA + amountA)
        = ((amountA.toNat * (st.pools poolId).tokenB.toNat
            / ((st.pools poolId).tokenA.toNat + amountA.toNat) : Nat) : Int)
    rw [Int.ofNat_ediv]
    push_cast [Int.toNat_of_nonneg hA, Int.toNat_of_nonneg hB, Int.toNat_of_nonneg hx]
    rfl

theorem swapAtoB_formula_holds :
    ((swapAtoB witnessState ⟨0⟩ 1 1000).1.pools 1).tokenA
        = (witnessState.pools 1).tokenA + 1000 ∧
    ((swapAtoB witnessState ⟨0⟩ 1 1000).1.pools 1).tokenB
        = (witnessState.pools 1).tokenB - (swapAtoB witnessState ⟨0⟩ 1 1000).2.amount ∧
    (swapAtoB witnessState ⟨0⟩ 1 1000).2.amount
        = (((1000 : Int).toNat * (witnessState.pools 1).tokenB.toNat
            / ((witnessState.pools 1).tokenA.toNat + (1000 : Int).toNat) : Nat) : Int) :=
  swapAtoB_formula witnessState ⟨0⟩ 1 1000 (by decide) (by decide) (by decide)

/-- C9: with non-negative reserves and input and `tokenA + amountA > 0`, the
    swap output equals `floor(amountA * tokenB / (tokenA + amountA))` and is
    at most `tokenB`, so the post-swap output-side reserve is never
    negative.  The embedding, like the source, places no guard before the
    division (the definition imposes no precondition). -/
theorem swapAtoB_output_bounded (st : ContractState) (sender : Address)
    (poolId amountA : Int)
    (hA : 0 ≤ (st.pools poolId).tokenA) (hB : 0 ≤ (st.pools poolId).tokenB)
    (hx : 0 ≤ amountA) (hd : 0 < (st.pools poolId).tokenA + amountA) :
    (swapAtoB st sender poolId amountA).2.amount
        = ((amountA.toNat * (st.pools poolId).tokenB.toNat
            / ((st.pools poolId).tokenA.toNat + amountA.toNat) : Nat) : Int) ∧
    (swapAtoB st sender poolId amountA).2.amount ≤ (st.pools poolId).tokenB ∧
    0 ≤ ((swapAtoB st sender poolId amountA).1.pools poolId).tokenB := by
  have hle : (swapAtoB st sender poolId amountA).2.amount ≤ (st.pools poolId).tokenB :=
    swap_output_le _ _ _ hA hB hx hd
  refine ⟨?_, hle, ?_⟩
  · show (amountA * (st.pools poolId).tokenB) / ((st.pools poolId).tokenA + amountA)
        = ((amountA.toNat * (st.pools poolId).tokenB.toNat
            / ((st.pools poolId).tokenA.toNat + amountA.toNat) : Nat) : Int)
    rw [Int.ofNat_ediv]
    push_cast [Int.toNat_of_nonneg hA, Int.toNat_of_nonneg hB, Int.toNat_of_nonneg hx]
    rfl
  · unfold swapAtoB
    simp only [Function.update_same]
    unfold swapAtoB at hle
    simp only at hle
    omega

theorem swapAtoB_output_bounded_holds :
    (swapAtoB witnessState ⟨0⟩ 1 1000).2.amount
        = (((1000 : Int).toNat * (witnessState.pools 1).tokenB.toNat
            / ((witnessState.pools 1).tokenA.toNat + (1000 : Int).toNat) : Nat) : Int) ∧
    (swapAtoB witnessState ⟨0⟩ 1 1000).2.amount ≤ (witnessState.pools 1).tokenB ∧
    0 ≤ ((swapAtoB witnessState ⟨0⟩ 1 1000).1.pools 1).tokenB :=
  swapAtoB_output_bounded witnessState ⟨0⟩ 1 1000 (by decide) (by decide) (by decide) (by decide)

/-- C10: `swapAtoB` modifies only the `tokenA` and `tokenB` fields of the
    selected pool: `totalLiquidity` and `liquidityProviders` of that pool,
    every other pool in the map, and `poolCount` are unchanged. -/
theorem swapAtoB_frame (st : ContractState) (sender : Address) (poolId amountA : Int) :
    (∀ q : Int, q ≠ poolId →
      (swapAtoB st sender poolId amountA).1.pools q = st.pools q) ∧
    ((swapAtoB st sender poolId amountA).1.pools poolId).totalLiquidity
        = (st.pools poolId).totalLiquidity ∧
    ((swapAtoB st sender poolId amountA).1.pools poolId).liquidityProviders
        = (st.pools poolId).liquidityProviders ∧
    (swapAtoB st sender poolId amountA).1.poolCount = st.poolCount := by
  unfold swapAtoB
  refine ⟨fun q hq => ?_, ?_, ?_, ?_⟩
  · simp only [Function.update_noteq hq]
  · simp only [Function.update_same]
  · simp only [Function.update_same]
  · rfl

theorem swapAtoB_frame_holds :
    (swapAtoB witnessState ⟨0⟩ 1 1000).1.pools 2 = witnessState.pools 2 :=
  (swapAtoB_frame witnessState ⟨0⟩ 1 1000).1 2 (by decide)

/-! ## Spec-side fee formula (for comparison with the code, claim C3). -/

/-- `FEE_DIVIDER = 10000` (README / spec). -/
def FEE_DIVIDER : Nat := 10000

/-- Ceiling of `baseOut * rate / FEE_DIVIDER`, the spec's fee rounding. -/
def specCeilFee (baseOut rate : Nat) : Nat :=
  (baseOut * rate + FEE_DIVIDER - 1) / FEE_DIVIDER

/-- The spec's words (section 4.1 / README `get_amount_out`): base output by
    the constant-product formula, three ceiling-rounded fees, final output
    `baseOut - providerFee - protocolFee - refFee`.  Stated from the spec,
    not the source: the source's `swapAtoB` is compared against it. -/
def specSwapAmountOut (amountIn reserveIn reserveOut lpFeeRate protocolFeeRate refFeeRate : Nat)
    (hasRef : Bool) : Nat :=
  let baseOut := amountIn * reserveOut / (reserveIn + amountIn)
  baseOut - specCeilFee baseOut lpFeeRate - specCeilFee baseOut protocolFeeRate
    - (if hasRef then specCeilFee baseOut refFeeRate else 0)

/-- C3: the code charges no fees.  At the spec's scenario — reserves
    `(1000000, 1000000)`, `lpFeeRate = 30`, `protocolFeeRate = 5`,
    `refFeeRate = 0`, `amountIn = 1000` — `swapAtoB` sends the full base
    output `999 = floor(1000 * 1000000 / 1001000)` to the user, while the
    spec's fee formula delivers `999 - 3 - 1 = 995`; the user does not
    receive strictly less than `baseOut` despite positive fee rates.  (The
    spec's scenario misquotes the base output as `998` and the net output
    as `994`; its own formula yields `999` and `995`.) -/
theorem swapAtoB_charges_no_fees :
    (swapAtoB witnessState ⟨0⟩ 1 1000).2.amount = 999 ∧
    specSwapAmountOut 1000 1000000 1000000 30 5 0 false = 995 ∧
    (999 : Int) ≠ (995 : Int) := by
  refine ⟨by decide, by decide, by decide⟩

/-- A pool with a zero input-side reserve (`tokenA = 0`, `tokenB = 5`). -/
def zeroReserveState : ContractState :=
  ⟨fun _ => ⟨0, 0, 5, fun _ => 0⟩, 1⟩

/-- C4: the code performs no validation.  A swap against a pool with
    `tokenA = 0` (zero reserve) does not fail with `NoLiquidity`: it
    proceeds, drains the whole opposite reserve (`tokenB` becomes `0`, the
    user is sent all `5` units) and mutates the state; and a swap with
    `amountA = 0` does not fail with `LowAmount`: it proceeds and sends `0`
    tokens.  The embedding, like the source, has no error path at all. -/
theorem swapAtoB_no_validation :
    ((swapAtoB zeroReserveState ⟨0⟩ 1 3).1.pools 1).tokenA = 3 ∧
    ((swapAtoB zeroReserveState ⟨0⟩ 1 3).1.pools 1).tokenB = 0 ∧
    (swapAtoB zeroReserveState ⟨0⟩ 1 3).2.amount = 5 ∧
    (swapAtoB witnessState ⟨0⟩ 1 0).2.amount = 0 ∧
    ((swapAtoB witnessState ⟨0⟩ 1 0).1.pools 1).tokenA = 1000000 := by
  refine ⟨by decide, by decide, by decide, by decide, by decide⟩

/-- The contract's initial global state (`poolCount = 0`, empty map). -/
def emptyState : ContractState :=
  ⟨fun _ => ⟨0, 0, 0, fun _ => 0⟩, 0⟩

/-- C5 counterexample: a first liquidity deposit of `amount0 = 100000`,
    `amount1 = 400000` does not mint `isqrt(100000 * 400000) = 200000`
    shares: `createPool` sets `totalLiquidity = amountA + amountB = 500000`. -/
theorem createPool_not_isqrt :
    ((createPool emptyState 100000 400000).1.pools 1).totalLiquidity = 500000 ∧
    Nat.sqrt (100000 * 400000) = 200000 ∧
    (500000 : Int) ≠ (200000 : Int) := by
  refine ⟨by decide, ?_, by decide⟩
  have h : (100000 * 400000 : Nat) = 200000 * 200000 := by norm_num
  rw [h, Nat.sqrt_eq]

/-- C5 amended: for every first liquidity deposit, the liquidity measure
    minted equals `amount0 + amount1` (the sum, not the square root of the
    product): `createPool` stores `Pool(amountA + amountB, amountA, amountB,
    [])` at the fresh id `poolCount + 1`. -/
theorem createPool_mints_sum (st : ContractState) (amountA amountB : Int) :
    ((createPool st amountA amountB).1.pools (createPool st amountA amountB).2).totalLiquidity
        = amountA + amountB ∧
    ((createPool st amountA amountB).1.pools (createPool st amountA amountB).2).tokenA
        = amountA ∧
    ((createPool st amountA amountB).1.pools (createPool st amountA amountB).2).tokenB
        = amountB ∧
    (createPool st amountA amountB).2 = st.poolCount + 1 := by
  unfold createPool
  refine ⟨?_, ?_, ?_, rfl⟩ <;> simp only [Function.update_same]

/-- C7: a newly initialized pool starts unlocked with zero reserves and zero
    LP supply: the `storeUint` items of `poolConfigToCell`, in write order
    `reserve_a`, `reserve_b`, `total_supply`, `min_liquidity`, `is_locked`,
    are `0`, `0`, `0`, `config.min_liquidity`, and `0` (Active / unlocked). -/
theorem poolConfigToCell_initial_state (config : PoolConfig) :
    storedUints (poolConfigToCell config) =
      [(0, 128), (0, 128), (0, 128), (config.min_liquidity, 128), (0, 1)] := rfl

/-! ## Spec-modelled handlers of the missing `contracts/pool.fc`.

`src/wrappers/pool.compile.ts` compiles `contracts/pool.fc`, which is not in
the repository; only its message encoders (`setFees`, `collectFees` in
`src/contracts/pool.ts`) and the README are.  The `set_fees` and
`collect_fees` handlers below are modelled from the spec. -/

/-- The contract's error taxonomy (spec section 7 / README error codes). -/
inductive PoolError where
  | noLiquidity
  | zeroOutput
  | invalidCaller
  | insufficientGas
  | feeOutOfRange
  | invalidToken
  | lowAmount
  | lowLiquidity
  | wrongK
  | mathError
  | invalidRecipient
deriving DecidableEq

/-- `MAX_FEE = 200` basis points (README constants). -/
def MAX_FEE : Nat := 200

/-- The stored fee schedule: three rates and two recipient identities. -/
structure FeeSchedule where
  lpFeeRate : Nat
  protocolFeeRate : Nat
  refFeeRate : Nat
  providerFeeAddress : Option Address
  protocolFeeAddress : Option Address
deriving DecidableEq

/-- Modelled from the spec: the on-chain `set_fees` handler of
    `contracts/pool.fc`, which is not in the repository (only its message
    encoder `setFees` in `src/contracts/pool.ts` is).  Spec section 4.4:
    validates each new rate is in `[0, 200]` — fails with `FeeOutOfRange`
    otherwise — and that the new recipient identities are non-null — fails
    with `InvalidRecipient` otherwise; applies atomically (all three rates
    and both addresses, or none). -/
def setFeesOp (newLpFee newProtocolFee newRefFee : Nat)
    (newProviderAddr newProtocolAddr : Option Address) : Except PoolError FeeSchedule :=
  if MAX_FEE < newLpFee ∨ MAX_FEE < newProtocolFee ∨ MAX_FEE < newRefFee then
    .error .feeOutOfRange
  else if newProviderAddr = none ∨ newProtocolAddr = none then
    .error .invalidRecipient
  else
    .ok ⟨newLpFee, newProtocolFee, newRefFee, newProviderAddr, newProtocolAddr⟩

/-- C6: each of the three new fee rates is validated to lie in `[0, 200]`;
    the operation fails with `FeeOutOfRange` when any rate is outside that
    range, and after every successful `set_fees` all three stored rates are
    at most `200` (the lower bound `0 ≤ rate` holds by the unsigned type). -/
theorem setFees_range_validated (lp pr rf : Nat) (a1 a2 : Option Address) :
    ((MAX_FEE < lp ∨ MAX_FEE < pr ∨ MAX_FEE < rf) →
      setFeesOp lp pr rf a1 a2 = .error .feeOutOfRange) ∧
    (∀ s : FeeSchedule, setFeesOp lp pr rf a1 a2 = .ok s →
      s.lpFeeRate ≤ 200 ∧ s.protocolFeeRate ≤ 200 ∧ s.refFeeRate ≤ 200) := by
  constructor
  · intro h
    simp only [setFeesOp, if_pos h]
  · intro s hs
    unfold setFeesOp at hs
    by_cases h1 : MAX_FEE < lp ∨ MAX_FEE < pr ∨ MAX_FEE < rf
    · rw [if_pos h1] at hs
      exact absurd hs (by simp)
    · rw [if_neg h1] at hs
      by_cases h2 : a1 = none ∨ a2 = none
      · rw [if_pos h2] at hs
        exact absurd hs (by simp)
      · rw [if_neg h2] at hs
        injection hs with hs
        push_neg at h1
        rw [← hs]
        exact ⟨h1.1, h1.2.1, h1.2.2⟩

theorem setFees_range_validated_holds :
    setFeesOp 300 5 0 (some ⟨1⟩) (some ⟨2⟩) = .error .feeOutOfRange ∧
    ((⟨10, 5, 0, some ⟨1⟩, some ⟨2⟩⟩ : FeeSchedule).lpFeeRate ≤ 200 ∧
      (⟨10, 5, 0, some ⟨1⟩, some ⟨2⟩⟩ : FeeSchedule).protocolFeeRate ≤ 200 ∧
      (⟨10, 5, 0, some ⟨1⟩, some ⟨2⟩⟩ : FeeSchedule).refFeeRate ≤ 200) :=
  ⟨(setFees_range_validated 300 5 0 (some ⟨1⟩) (some ⟨2⟩)).1 (by decide),
    (setFees_range_validated 10 5 0 (some ⟨1⟩) (some ⟨2⟩)).2
      ⟨10, 5, 0, some ⟨1⟩, some ⟨2⟩⟩ rfl⟩

/-- `REQUIRED_MIN_COLLECT_FEES = 1000000` (README constants). -/
def REQUIRED_MIN_COLLECT_FEES : Nat := 1000000

/-- The accrued-but-uncollected fee accumulators, per recipient and token. -/
structure FeeAccumulators where
  providerFee0 : Nat
  providerFee1 : Nat
  protocolFee0 : Nat
  protocolFee1 : Nat
deriving DecidableEq

/-- A payout recipient of fee collection. -/
inductive Recipient where
  | provider
  | protocol
  | collector
deriving DecidableEq

/-- A fee payout instruction: recipient, token index (0 or 1), amount. -/
structure Payout where
  recipient : Recipient
  token : Nat
  amount : Nat
deriving DecidableEq

/-- Modelled from the spec: the on-chain `collect_fees` handler of
    `contracts/pool.fc`, which is not in the repository (only its message
    encoder `collectFees` in `src/contracts/pool.ts` is).  Spec section 4.3:
    a no-op (not an error) when both per-token provider+protocol totals are
    below `REQUIRED_MIN_COLLECT_FEES`; otherwise pays the caller a `0.1%`
    collector reward taken out of the protocol share, emits one payout per
    recipient and token, and zeroes the accumulators. -/
def collectFeesOp (acc : FeeAccumulators) : FeeAccumulators × List Payout :=
  if acc.providerFee0 + acc.protocolFee0 < REQUIRED_MIN_COLLECT_FEES ∧
      acc.providerFee1 + acc.protocolFee1 < REQUIRED_MIN_COLLECT_FEES then
    (acc, [])
  else
    let reward0 := (acc.providerFee0 + acc.protocolFee0) / 1000
    let reward1 := (acc.providerFee1 + acc.protocolFee1) / 1000
    (⟨0, 0, 0, 0⟩,
      [⟨.collector, 0, reward0⟩, ⟨.collector, 1, reward1⟩,
        ⟨.provider, 0, acc.providerFee0⟩, ⟨.provider, 1, acc.providerFee1⟩,
        ⟨.protocol, 0, acc.protocolFee0 - reward0⟩, ⟨.protocol, 1, acc.protocolFee1 - reward1⟩])

/-- C8: `collect_fees` twice in succession with no intervening swap is a
    no-op the second time: the second call returns the state unchanged and
    emits no payouts, and whenever the first call did emit payouts it left
    every accumulator at zero (which is below the minimum-collect
    threshold). -/
theorem collectFees_second_call_noop (acc : FeeAccumulators) :
    collectFeesOp (collectFeesOp acc).1 = ((collectFeesOp acc).1, []) ∧
    ((collectFeesOp acc).2 ≠ [] → (collectFeesOp acc).1 = ⟨0, 0, 0, 0⟩) := by
  by_cases hc : acc.providerFee0 + acc.protocolFee0 < REQUIRED_MIN_COLLECT_FEES ∧
      acc.providerFee1 + acc.protocolFee1 < REQUIRED_MIN_COLLECT_FEES
  · constructor
    · simp only [collectFeesOp, if_pos hc]
    · simp only [collectFeesOp, if_pos hc]
      intro h
      exact absurd rfl h
  · constructor
    · simp only [collectFeesOp, if_neg hc]
      norm_num [REQUIRED_MIN_COLLECT_FEES]
    · intro _
      simp only [collectFeesOp, if_neg hc]

theorem collectFees_second_call_noop_holds :
    (collectFeesOp ⟨2000000, 0, 0, 0⟩).1 = (⟨0, 0, 0, 0⟩ : FeeAccumulators) :=
  (collectFees_second_call_noop ⟨2000000, 0, 0, 0⟩).2 (by decide)
